import Mathlib

/-!
Verification development for the `futures` repository: a shallow embedding of
the Core finite state machine (`src/detail/core.rs`), the `Try` value type
(`src/try.rs`), the Future/Promise handles (`src/future.rs`, `src/promise.rs`)
and the queued-immediate executor (`src/executor.rs`), together with theorems
settling the spec claims.

The embedding is sequential: every public Core operation in the source is a
critical section guarded by the relevant spinlock (state lock, interrupt lock,
executor lock), so a single-threaded trace of whole operations models each
legal interleaving of whole operations.  CAS retry loops in `set_callback`,
`set_result` and `maybe_callback` always succeed on the first iteration in a
sequential execution, so they are collapsed to a single case split on the
observed state.  Callbacks (`Box<FnBox(Try<T>)>`) and interrupt handlers
(`Arc<Fn(&io::Error)>`) are opaque to the Core: they are modelled by numeric
identifiers, and invoking one is modelled by emitting an event so that traces
record exactly which callable was invoked, with which argument.
-/

namespace Futures

/-- io::ErrorKind as used by the repository (only `Other` ever occurs). -/
inductive ErrorKind where
  | other
deriving DecidableEq

/-- io::Error: an error kind plus the textual reason given at construction. -/
structure IoError where
  kind : ErrorKind
  reason : String
deriving DecidableEq

/-- The enum `Contains<T, E>` of `src/try.rs` with `E = io::Error`. -/
inductive Contains (α : Type) where
  | VALUE (a : α)
  | ERROR (e : IoError)
  | NOTHING

/-- `Try<T>` of `src/try.rs`: a tagged union of value, error, or nothing. -/
structure Try (α : Type) where
  contains : Contains α

/-- `Try::new`. -/
def Try.new {α : Type} : Try α := ⟨Contains.NOTHING⟩

/-- `Try::new_error`. -/
def Try.new_error {α : Type} (err : IoError) : Try α := ⟨Contains.ERROR err⟩

/-- `Try::new_value`. -/
def Try.new_value {α : Type} (val : α) : Try α := ⟨Contains.VALUE val⟩

/-- `Try::has_error`. -/
def Try.has_error {α : Type} (t : Try α) : Bool :=
  match t.contains with
  | Contains.ERROR _ => true
  | _ => false

/-- `Try::has_value`. -/
def Try.has_value {α : Type} (t : Try α) : Bool :=
  match t.contains with
  | Contains.VALUE _ => true
  | _ => false

/-- `Try::get_error`. -/
def Try.get_error {α : Type} (t : Try α) : IoError :=
  match t.contains with
  | Contains.VALUE _ => ⟨ErrorKind.other, "Calling get_error on a succesful Try"⟩
  | Contains.ERROR err => err
  | Contains.NOTHING => ⟨ErrorKind.other, "Using Uninitialized Try"⟩

/-- `Try::value`, returning Rust `Result<T, io::Error>` modelled as
`Except IoError α` (`Except.ok` is `Ok`, `Except.error` is `Err`). -/
def Try.value {α : Type} (t : Try α) : Except IoError α :=
  match t.contains with
  | Contains.VALUE val => Except.ok val
  | Contains.ERROR err => Except.error err
  | Contains.NOTHING => Except.error ⟨ErrorKind.other, "Using Uninitialized Try"⟩

/-- The FSM states of `src/detail/core.rs`. -/
inductive State where
  | Start
  | OnlyResult
  | OnlyCallback
  | Armed
  | Done
deriving DecidableEq

/-- The trait object behind `*const Executor`, reduced to the one method the
Core ever calls on it, `get_num_priorities` (a `u8`; the default trait
implementation returns 1 and no executor in the repository overrides it). -/
structure Exec where
  num_priorities : Nat

/-- Observable events of a Core execution trace. -/
inductive Event (α : Type) where
  /-- the value of `attached` just after a `fetch_add`/`fetch_sub` on it -/
  | attach_changed (n : Nat)
  /-- `callback(try)` executed inline on the completing thread in `do_callback` -/
  | callback_inline (cb : Nat) (t : Try α)
  /-- a closure handed to `Executor::add`; `do_callback` in the source never
  does this, so no Core operation of this model ever emits it -/
  | executor_add (cb : Nat) (t : Try α)
  /-- the interrupt handler `h` invoked with the stored interrupt error -/
  | handler_invoked (h : Nat) (e : IoError)

/-- The fields of `Core<T>` (`src/detail/core.rs`).  Locks are omitted (each
operation is one critical section in the sequential model), `context` is the
unimplemented `RequestContext` stub, and `consumed` is ghost instrumentation:
it is set exactly where the source moves the result out of its slot
(`(*result).take()` in `get_try` and in `do_callback`) and is read by no
operation. -/
structure CoreS (α : Type) where
  /-- `Box<FnBox(Try<T>)>`: `none` is the initial no-op closure, `some cb` an
  installed callback -/
  callback : Option Nat
  result : Option (Try α)
  state : State
  /-- `AtomicUsize` (64-bit) -/
  attached : Nat
  active : Bool
  interrupt_handler_set : Bool
  /-- `i8` priority hint -/
  priority : Int
  /-- `*const Executor`: `none` models `null_executor()` -/
  executor : Option Exec
  interrupt : Option IoError
  /-- `Arc<Fn(&io::Error)>` as an opaque identifier -/
  interrupt_handler : Option Nat
  /-- ghost: the result has been moved out of the slot -/
  consumed : Bool

/-- usize overflow bound (the repository targets 64-bit). -/
def U64 : Nat := 2 ^ 64

/-- `Core::new`: attach=2, state=Start, everything else empty/default. -/
def Core.new {α : Type} : CoreS α :=
  { callback := none
    result := none
    state := State.Start
    attached := 2
    active := true
    interrupt_handler_set := false
    priority := -1
    executor := none
    interrupt := none
    interrupt_handler := none
    consumed := false }

/-- `Core::new_try`: attach=1, state=OnlyResult, result pre-filled. -/
def Core.new_try {α : Type} (t : Try α) : CoreS α :=
  { callback := none
    result := some t
    state := State.OnlyResult
    attached := 1
    active := true
    interrupt_handler_set := false
    priority := -1
    executor := none
    interrupt := none
    interrupt_handler := none
    consumed := false }

/-- `Core::detach_one`: `fetch_sub(1)` on `attached` (wrapping, as `usize`
arithmetic does), then `assert!(attached <= 2)`; at zero the Core is dropped.
Panics are modelled as `Except.error` carrying the panic message. -/
def detach_one {α : Type} (c : CoreS α) : Except String (CoreS α × List (Event α)) :=
  let n := if c.attached = 0 then U64 - 1 else c.attached - 1
  if n ≤ 2 then
    Except.ok ({ c with attached := n }, [Event.attach_changed n])
  else
    Except.error "assertion failed: attached <= 2"

/-- `Core::has_result`: derived from the state; in the three result-bearing
states the source `assert!`s that the result slot is occupied. -/
def has_result {α : Type} (c : CoreS α) : Except String Bool :=
  match c.state with
  | State.OnlyCallback => Except.ok false
  | State.Start => Except.ok false
  | State.OnlyResult =>
    if c.result.isSome then Except.ok true
    else Except.error "assertion failed: (*self.result.get()).is_some()"
  | State.Armed =>
    if c.result.isSome then Except.ok true
    else Except.error "assertion failed: (*self.result.get()).is_some()"
  | State.Done =>
    if c.result.isSome then Except.ok true
    else Except.error "assertion failed: (*self.result.get()).is_some()"

/-- `Core::ready`. -/
def ready {α : Type} (c : CoreS α) : Except String Bool := has_result c

/-- `Core::get_try`: if ready, `take()` the result out of the slot (ghost flag
`consumed` records the move) and return it; else `panic!("Future not ready")`. -/
def get_try {α : Type} (c : CoreS α) : Except String (Try α × CoreS α) :=
  match ready c with
  | Except.error msg => Except.error msg
  | Except.ok true =>
    match c.result with
    | some t => Except.ok (t, { c with result := none, consumed := true })
    | none => Except.error "called Option::unwrap on a None value"
  | Except.ok false => Except.error "Future not ready"

/-- The shared body of the two inline-invocation branches of
`Core::do_callback`: under a `scope_exit!(self.detach_one())` guard, restore
the request context (a no-op stub), `mem::replace` the callback slot with a
no-op, `take()` the result, and if a result was present run `callback(try)`
on the current thread.  `ev0` is the event prefix from the attach bump. -/
def invoke_inline {α : Type} (c : CoreS α) (ev0 : List (Event α)) :
    Except String (CoreS α × List (Event α)) :=
  let cb := c.callback
  let c1 := { c with callback := none }
  match c1.result with
  | some t =>
    let c2 := { c1 with result := none, consumed := true }
    let ev1 :=
      match cb with
      | some id => [Event.callback_inline id t]
      | none => ([] : List (Event α))
    match detach_one c2 with
    | Except.error msg => Except.error msg
    | Except.ok (c3, ev2) => Except.ok (c3, ev0 ++ ev1 ++ ev2)
  | none =>
    match detach_one c1 with
    | Except.error msg => Except.error msg
    | Except.ok (c3, ev2) => Except.ok (c3, ev0 ++ ev2)

/-- `Core::do_callback`: snapshot the executor binding, bump `attached` by one
(wrapping `fetch_add`) to keep the Core alive, then either invoke the callback
inline (null executor, or an executor reporting `get_num_priorities() == 1`) or
do nothing at all (the unimplemented `num_priorities != 1` branch, which has no
scope guard, so the attach bump is not undone). -/
def do_callback {α : Type} (c : CoreS α) : Except String (CoreS α × List (Event α)) :=
  let executor := c.executor
  let c1 := { c with attached := (c.attached + 1) % U64 }
  let ev0 := [Event.attach_changed c1.attached]
  match executor with
  | some e =>
    if e.num_priorities = 1 then invoke_inline c1 ev0
    else Except.ok (c1, ev0)
  | none => invoke_inline c1 ev0

/-- `Core::maybe_callback`: if the state is `Armed` and the core is active,
transition `Armed → Done` under the lock and run `do_callback` outside it;
in every other state, return.  (The retry loop always terminates after one
iteration sequentially.) -/
def maybe_callback {α : Type} (c : CoreS α) : Except String (CoreS α × List (Event α)) :=
  match c.state with
  | State.Armed =>
    if c.active then do_callback { c with state := State.Done }
    else Except.ok (c, [])
  | _ => Except.ok (c, [])

/-- `Core::set_callback`: install the callback under the state lock with the
transition `Start → OnlyCallback` or `OnlyResult → Armed`; any other state is
the fatal logic error `set_callback called twice`; if `Armed` was reached, run
`maybe_callback`. -/
def set_callback {α : Type} (c : CoreS α) (cb : Nat) :
    Except String (CoreS α × List (Event α)) :=
  match c.state with
  | State.Start =>
    Except.ok ({ c with callback := some cb, state := State.OnlyCallback }, [])
  | State.OnlyResult =>
    maybe_callback { c with callback := some cb, state := State.Armed }
  | State.OnlyCallback => Except.error "logic error: set_callback called twice"
  | State.Armed => Except.error "logic error: set_callback called twice"
  | State.Done => Except.error "logic error: set_callback called twice"

/-- `Core::set_result`: install the result under the state lock with the
transition `Start → OnlyResult` or `OnlyCallback → Armed`; any other state is
the fatal logic error `set_result called twice`; if `Armed` was reached, run
`maybe_callback`. -/
def set_result {α : Type} (c : CoreS α) (res : Try α) :
    Except String (CoreS α × List (Event α)) :=
  match c.state with
  | State.Start =>
    Except.ok ({ c with result := some res, state := State.OnlyResult }, [])
  | State.OnlyCallback =>
    maybe_callback { c with result := some res, state := State.Armed }
  | State.OnlyResult => Except.error "logic error: set_result called twice"
  | State.Armed => Except.error "logic error: set_result called twice"
  | State.Done => Except.error "logic error: set_result called twice"

/-- `Core::deactivate`: store `false` into `active`. -/
def deactivate {α : Type} (c : CoreS α) : CoreS α :=
  { c with active := false }

/-- `Core::activate`: store `true` into `active`, then `maybe_callback`. -/
def activate {α : Type} (c : CoreS α) : Except String (CoreS α × List (Event α)) :=
  maybe_callback { c with active := true }

/-- `Core::raise`: under the interrupt lock, if no interrupt is recorded yet
and no result is present, store the error and, if a handler is installed,
invoke it with the stored error. -/
def raise {α : Type} (c : CoreS α) (err : IoError) :
    Except String (CoreS α × List (Event α)) :=
  if c.interrupt.isNone then
    match has_result c with
    | Except.error msg => Except.error msg
    | Except.ok true => Except.ok (c, [])
    | Except.ok false =>
      let c1 := { c with interrupt := some err }
      match c1.interrupt_handler with
      | some h => Except.ok (c1, [Event.handler_invoked h err])
      | none => Except.ok (c1, [])
  else Except.ok (c, [])

/-- `Core::set_interrupt_handler_nolock`: set the fast-path flag and store the
handler. -/
def set_interrupt_handler_nolock {α : Type} (c : CoreS α) (h : Nat) : CoreS α :=
  { c with interrupt_handler_set := true, interrupt_handler := some h }

/-- `Core::set_interrupt_handler`: under the interrupt lock, if no result is
present then either call the handler at once on an already-recorded interrupt
(without storing it) or store it. -/
def set_interrupt_handler {α : Type} (c : CoreS α) (h : Nat) :
    Except String (CoreS α × List (Event α)) :=
  match has_result c with
  | Except.error msg => Except.error msg
  | Except.ok true => Except.ok (c, [])
  | Except.ok false =>
    match c.interrupt with
    | some err => Except.ok (c, [Event.handler_invoked h err])
    | none => Except.ok (set_interrupt_handler_nolock c h, [])

/-- `Core::get_interrupt_handler`: `none` unless the fast-path flag is set,
else a clone of the stored handler. -/
def get_interrupt_handler {α : Type} (c : CoreS α) : Option Nat :=
  if !c.interrupt_handler_set then none else c.interrupt_handler

/-- `Core::detach_future`: `activate()` then `detach_one()`. -/
def detach_future {α : Type} (c : CoreS α) : Except String (CoreS α × List (Event α)) :=
  match activate c with
  | Except.error msg => Except.error msg
  | Except.ok (c1, ev1) =>
    match detach_one c1 with
    | Except.error msg => Except.error msg
    | Except.ok (c2, ev2) => Except.ok (c2, ev1 ++ ev2)

/-- `Core::detach_promise`: if the result slot is empty, inject the
`Broken Promise` error through the normal `set_result` path; then
`detach_one()`. -/
def detach_promise {α : Type} (c : CoreS α) : Except String (CoreS α × List (Event α)) :=
  if c.result.isNone then
    match set_result c (Try.new_error ⟨ErrorKind.other, "Broken Promise"⟩) with
    | Except.error msg => Except.error msg
    | Except.ok (c1, ev1) =>
      match detach_one c1 with
      | Except.error msg => Except.error msg
      | Except.ok (c2, ev2) => Except.ok (c2, ev1 ++ ev2)
  else
    detach_one c

/-- `Future::value` (`src/future.rs`): `get_try()` on the core, then
`Try::value` on the returned `Try`.  The outer `Except String` layer carries
panics (`get_try` panics when the core is not ready); the inner
`Except IoError α` is the `Result<T, io::Error>` handed back to the caller. -/
def Future.value {α : Type} (c : CoreS α) :
    Except String (Except IoError α × CoreS α) :=
  match get_try c with
  | Except.error msg => Except.error msg
  | Except.ok (t, c1) => Except.ok (Try.value t, c1)

/-- A `Promise<T>` handle (`src/promise.rs`): its core (the source holds a
non-null `*mut Core<T>`) and the `retrieved` flag. -/
structure PromiseS (α : Type) where
  core : CoreS α
  retrieved : Bool

/-- `Promise::new`: a fresh core, not yet retrieved. -/
def Promise.new {α : Type} : PromiseS α :=
  { core := Core.new, retrieved := false }

/-- `Promise::get_future`: yields the paired Future (which shares the core)
exactly once; a second call fails with `Promise already retrieved`. -/
def Promise.get_future {α : Type} (p : PromiseS α) : Except IoError (PromiseS α) :=
  if p.retrieved then
    Except.error ⟨ErrorKind.other, "Promise already retrieved"⟩
  else
    Except.ok { p with retrieved := true }

/-- `Promise::drop` → `Promise::detach`: if the Future was never retrieved,
`detach_future` first; then `detach_promise` (which injects the
`Broken Promise` result when no result was ever set). -/
def Promise.detach {α : Type} (p : PromiseS α) :
    Except String (CoreS α × List (Event α)) :=
  if !p.retrieved then
    match detach_future p.core with
    | Except.error msg => Except.error msg
    | Except.ok (c1, ev1) =>
      match detach_promise c1 with
      | Except.error msg => Except.error msg
      | Except.ok (c2, ev2) => Except.ok (c2, ev1 ++ ev2)
  else
    detach_promise p.core

/-- One public Core operation, for quantifying over operation sequences. -/
inductive Op (α : Type) where
  | set_result (t : Try α)
  | set_callback (cb : Nat)
  | activate
  | deactivate
  | raise (e : IoError)
  | set_interrupt_handler (h : Nat)
  | get_try
  | detach_future
  | detach_promise

/-- Apply one public Core operation to a core (the `Try` returned by
`get_try` is dropped by the caller; only the state effect remains). -/
def applyOp {α : Type} (c : CoreS α) : Op α → Except String (CoreS α × List (Event α))
  | Op.set_result t => set_result c t
  | Op.set_callback cb => set_callback c cb
  | Op.activate => activate c
  | Op.deactivate => Except.ok (deactivate c, [])
  | Op.raise e => raise c e
  | Op.set_interrupt_handler h => set_interrupt_handler c h
  | Op.get_try =>
    match get_try c with
    | Except.error msg => Except.error msg
    | Except.ok (_, c1) => Except.ok (c1, [])
  | Op.detach_future => detach_future c
  | Op.detach_promise => detach_promise c

/-- Run a sequence of public Core operations, accumulating the event trace;
a panic in any operation aborts the run. -/
def runOps {α : Type} (c : CoreS α) : List (Op α) → Except String (CoreS α × List (Event α))
  | [] => Except.ok (c, [])
  | op :: ops =>
    match applyOp c op with
    | Except.error msg => Except.error msg
    | Except.ok (c1, ev1) =>
      match runOps c1 ops with
      | Except.error msg => Except.error msg
      | Except.ok (c2, ev2) => Except.ok (c2, ev1 ++ ev2)

/-- The callback invocations recorded in a trace, in order: which callback ran
inline, with which `Try` argument. -/
def invocations {α : Type} (ev : List (Event α)) : List (Nat × Try α) :=
  ev.filterMap fun e =>
    match e with
    | Event.callback_inline cb t => some (cb, t)
    | _ => none

/-- The units of work a trace submitted through `Executor::add`. -/
def executorSubmissions {α : Type} (ev : List (Event α)) : List (Nat × Try α) :=
  ev.filterMap fun e =>
    match e with
    | Event.executor_add cb t => some (cb, t)
    | _ => none

/-- The interrupt-handler invocations recorded in a trace, in order. -/
def handlerInvocations {α : Type} (ev : List (Event α)) : List (Nat × IoError) :=
  ev.filterMap fun e =>
    match e with
    | Event.handler_invoked h err => some (h, err)
    | _ => none

/-!
Model of `QueuedImmediateExecutor` (`src/executor.rs`).  A unit of work is a
task identified by a number; the only interaction a task body has with the
executor is the sequence of `add` calls it makes, so a task is a tree: its
identifier and the list of tasks it submits, in submission order, while it
runs.  Running a task emits a `started`/`finished` event pair around its body.

`add` on an empty thread-local queue pushes the work and drains: it repeatedly
pops the front task and executes it until the queue is empty.  While a popped
task executes, the source keeps a placeholder closure at the front of the
queue, so the queue is never empty during the body and every nested `add`
takes the non-empty branch, `push_back` — modelled in `edrain` by appending
the executing task's children to the rest of the queue. -/

/-- A unit of work handed to `QueuedImmediateExecutor::add`: its identifier
and the tasks its body submits via nested `add` calls, in order. -/
inductive Task where
  | mk (id : Nat) (children : List Task)

/-- The identifier of a task. -/
def Task.id : Task → Nat
  | Task.mk i _ => i

/-- The tasks a task submits while running, in submission order. -/
def Task.children : Task → List Task
  | Task.mk _ cs => cs

/-- Execution events of the queued-immediate executor. -/
inductive TEvent where
  | started (i : Nat)
  | finished (i : Nat)
deriving DecidableEq

mutual
/-- The number of tasks in a tree (the executor eventually runs each once). -/
def Task.size : Task → Nat
  | Task.mk _ cs => 1 + Task.sizeList cs
/-- The total number of tasks in a forest. -/
def Task.sizeList : List Task → Nat
  | [] => 0
  | t :: ts => Task.size t + Task.sizeList ts
end

/-- The drain loop of `QueuedImmediateExecutor::add`: pop the front task,
execute it (its nested `add`s append its children to the queue, since the
placeholder keeps the queue non-empty), discard the placeholder, repeat until
the queue is empty. -/
def edrain (q : List Task) : List TEvent :=
  match q with
  | [] => []
  | t :: rest =>
    TEvent.started t.id :: TEvent.finished t.id :: edrain (rest ++ t.children)
termination_by Task.sizeList q
decreasing_by
  have hs : ∀ a b : List Task,
      Task.sizeList (a ++ b) = Task.sizeList a + Task.sizeList b := by
    intro a b
    induction a with
    | nil => simp [Task.sizeList]
    | cons x xs ih => simp [Task.sizeList, ih]; omega
  have ht : Task.size t = 1 + Task.sizeList t.children := by
    cases t with
    | mk i cs => simp [Task.size, Task.children]
  simp only [Task.sizeList, hs, ht]
  omega

/-- `QueuedImmediateExecutor::add`: on an empty queue, push and drain until
empty (returning the events of the whole drain and the final, empty, queue);
on a non-empty queue (a drain is in progress higher up the stack), just
`push_back`. -/
def qadd (q : List Task) (t : Task) : List TEvent × List Task :=
  if q.isEmpty then (edrain [t], [])
  else ([], q ++ [t])

/-- The `started`/`finished` event pairs of the tasks of a queue, in queue
order: what a drain emits for the tasks currently enqueued, before any of the
tasks they submit run. -/
def beginsEnds (q : List Task) : List TEvent :=
  match q with
  | [] => []
  | t :: ts => TEvent.started t.id :: TEvent.finished t.id :: beginsEnds ts

/-- The tasks submitted by the tasks of a queue, in overall FIFO submission
order: the queue contents once every task of `q` has run. -/
def childrenQueue (q : List Task) : List Task :=
  match q with
  | [] => []
  | t :: ts => t.children ++ childrenQueue ts

/-- The result-slot invariant as the code maintains it: in a result-bearing
state the slot is occupied unless the result has already been moved out (ghost
flag `consumed`, set by `get_try` and by the dispatch in `do_callback`). -/
def resultInv {α : Type} (c : CoreS α) : Prop :=
  (c.state = State.OnlyResult ∨ c.state = State.Armed ∨ c.state = State.Done) →
    (c.result.isSome = true ∨ c.consumed = true)

/-- The bound executor, if any, reports `get_num_priorities() == 1` — true of
every executor in the repository (the trait default, which neither
`InlineExecutor` nor `QueuedImmediateExecutor` overrides). -/
def execOK {α : Type} (c : CoreS α) : Prop :=
  ∀ e, c.executor = some e → e.num_priorities = 1

theorem detach_one_ok {α : Type} {c c' : CoreS α} {ev : List (Event α)}
    (h : detach_one c = Except.ok (c', ev)) :
    c' = { c with attached := c.attached - 1 } ∧ c.attached ≠ 0 := by
  unfold detach_one at h
  dsimp only at h
  by_cases h0 : c.attached = 0
  · rw [if_pos h0] at h
    norm_num [U64] at h
    simp at h
  · rw [if_neg h0] at h
    split at h
    · cases h
      exact ⟨rfl, h0⟩
    · simp at h

theorem invoke_inline_ok {α : Type} {c c' : CoreS α} {ev0 ev : List (Event α)}
    (h : invoke_inline c ev0 = Except.ok (c', ev)) :
    c'.state = c.state ∧ c'.executor = c.executor
      ∧ c'.attached = c.attached - 1 ∧ c.attached ≠ 0
      ∧ c'.result = none
      ∧ ((c.result.isSome = true ∨ c.consumed = true) → c'.consumed = true) := by
  unfold invoke_inline at h
  dsimp only at h
  split at h
  next t heq =>
    split at h
    · simp at h
    next c3 ev2 hd =>
      cases h
      obtain ⟨rfl, hz⟩ := detach_one_ok hd
      exact ⟨rfl, rfl, rfl, hz, rfl, fun _ => rfl⟩
  next heq =>
    split at h
    · simp at h
    next c3 ev2 hd =>
      cases h
      obtain ⟨rfl, hz⟩ := detach_one_ok hd
      refine ⟨rfl, rfl, rfl, hz, heq, ?_⟩
      intro hor
      rcases hor with hs | hcons
      · rw [heq] at hs
        simp at hs
      · exact hcons

theorem do_callback_ok {α : Type} {c c' : CoreS α} {ev : List (Event α)}
    (h : do_callback c = Except.ok (c', ev)) :
    c'.state = c.state ∧ c'.executor = c.executor
      ∧ ((c.result.isSome = true ∨ c.consumed = true) →
          (c'.result.isSome = true ∨ c'.consumed = true))
      ∧ (execOK c → c'.attached ≤ c.attached ∧ (c.attached = 0 → c'.attached = 0)) := by
  unfold do_callback at h
  dsimp only at h
  have hmod : (c.attached + 1) % U64 ≤ c.attached + 1 := Nat.mod_le _ _
  split at h
  next e heq =>
    split at h
    · obtain ⟨h1, h2, h3, h4, h5, h6⟩ := invoke_inline_ok h
      dsimp only at h1 h2 h3 h4 h5 h6
      refine ⟨h1, h2, fun hd => Or.inr (h6 (Or.elim hd (fun hx => Or.inl hx) Or.inr)), ?_⟩
      intro _
      constructor
      · omega
      · intro h0
        omega
    next hnp =>
      cases h
      refine ⟨rfl, rfl, fun hd => hd, ?_⟩
      intro hex
      exact absurd (hex e heq) hnp
  next heq =>
    obtain ⟨h1, h2, h3, h4, h5, h6⟩ := invoke_inline_ok h
    dsimp only at h1 h2 h3 h4 h5 h6
    refine ⟨h1, h2, fun hd => Or.inr (h6 (Or.elim hd (fun hx => Or.inl hx) Or.inr)), ?_⟩
    intro _
    constructor
    · omega
    · intro h0
      omega

theorem maybe_callback_ok {α : Type} {c c' : CoreS α} {ev : List (Event α)}
    (h : maybe_callback c = Except.ok (c', ev)) :
    c'.executor = c.executor
      ∧ (resultInv c → resultInv c')
      ∧ (execOK c → c'.attached ≤ c.attached ∧ (c.attached = 0 → c'.attached = 0)) := by
  unfold maybe_callback at h
  split at h
  next heq =>
    split at h
    · obtain ⟨h1, h2, h3, h4⟩ := do_callback_ok h
      refine ⟨h2, ?_, h4⟩
      intro hinv _
      exact h3 (hinv (Or.inr (Or.inl heq)))
    · cases h
      exact ⟨rfl, fun hinv => hinv, fun _ => ⟨le_refl _, fun h0 => h0⟩⟩
  next =>
    cases h
    exact ⟨rfl, fun hinv => hinv, fun _ => ⟨le_refl _, fun h0 => h0⟩⟩

theorem set_result_ok {α : Type} {c c' : CoreS α} {t : Try α} {ev : List (Event α)}
    (h : set_result c t = Except.ok (c', ev)) :
    c'.executor = c.executor
      ∧ resultInv c'
      ∧ (execOK c → c'.attached ≤ c.attached ∧ (c.attached = 0 → c'.attached = 0)) := by
  unfold set_result at h
  split at h
  · cases h
    exact ⟨rfl, fun _ => Or.inl rfl, fun _ => ⟨le_refl _, fun h0 => h0⟩⟩
  · obtain ⟨h1, h2, h3⟩ := maybe_callback_ok h
    exact ⟨h1, h2 (fun _ => Or.inl rfl), h3⟩
  · simp at h
  · simp at h
  · simp at h

theorem set_callback_ok {α : Type} {c c' : CoreS α} {cb : Nat} {ev : List (Event α)}
    (h : set_callback c cb = Except.ok (c', ev)) :
    c'.executor = c.executor
      ∧ (resultInv c → resultInv c')
      ∧ (execOK c → c'.attached ≤ c.attached ∧ (c.attached = 0 → c'.attached = 0)) := by
  unfold set_callback at h
  split at h
  · cases h
    refine ⟨rfl, ?_, fun _ => ⟨le_refl _, fun h0 => h0⟩⟩
    intro _ hd
    rcases hd with hd | hd | hd <;> exact absurd hd (by simp)
  next heq =>
    obtain ⟨h1, h2, h3⟩ := maybe_callback_ok h
    refine ⟨h1, ?_, h3⟩
    intro hinv
    exact h2 (fun _ => hinv (Or.inl heq))
  · simp at h
  · simp at h
  · simp at h

theorem activate_ok {α : Type} {c c' : CoreS α} {ev : List (Event α)}
    (h : activate c = Except.ok (c', ev)) :
    c'.executor = c.executor
      ∧ (resultInv c → resultInv c')
      ∧ (execOK c → c'.attached ≤ c.attached ∧ (c.attached = 0 → c'.attached = 0)) := by
  unfold activate at h
  obtain ⟨h1, h2, h3⟩ := maybe_callback_ok h
  exact ⟨h1, fun hinv => h2 (fun hd => hinv hd), h3⟩

theorem get_try_ok {α : Type} {c c' : CoreS α} {t : Try α}
    (h : get_try c = Except.ok (t, c')) :
    c' = { c with result := none, consumed := true } := by
  unfold get_try at h
  split at h
  · simp at h
  · split at h
    · cases h
      rfl
    · simp at h
  · simp at h

theorem raise_ok {α : Type} {c c' : CoreS α} {e : IoError} {ev : List (Event α)}
    (h : raise c e = Except.ok (c', ev)) :
    c'.state = c.state ∧ c'.result = c.result ∧ c'.attached = c.attached
      ∧ c'.consumed = c.consumed ∧ c'.executor = c.executor := by
  unfold raise at h
  split at h
  · split at h
    · simp at h
    · cases h
      exact ⟨rfl, rfl, rfl, rfl, rfl⟩
    · dsimp only at h
      split at h <;> cases h <;> exact ⟨rfl, rfl, rfl, rfl, rfl⟩
  · cases h
    exact ⟨rfl, rfl, rfl, rfl, rfl⟩

theorem set_interrupt_handler_ok {α : Type} {c c' : CoreS α} {hd : Nat}
    {ev : List (Event α)}
    (h : set_interrupt_handler c hd = Except.ok (c', ev)) :
    c'.state = c.state ∧ c'.result = c.result ∧ c'.attached = c.attached
      ∧ c'.consumed = c.consumed ∧ c'.executor = c.executor := by
  unfold set_interrupt_handler at h
  split at h
  · simp at h
  · cases h
    exact ⟨rfl, rfl, rfl, rfl, rfl⟩
  · split at h <;> cases h <;> exact ⟨rfl, rfl, rfl, rfl, rfl⟩

theorem applyOp_resultInv {α : Type} {c c' : CoreS α} {op : Op α} {ev : List (Event α)}
    (h : applyOp c op = Except.ok (c', ev)) (hc : resultInv c) : resultInv c' := by
  cases op with
  | set_result t => exact (set_result_ok h).2.1
  | set_callback cb => exact (set_callback_ok h).2.1 hc
  | activate => exact (activate_ok h).2.1 hc
  | deactivate =>
    cases h
    exact fun hd => hc hd
  | raise e =>
    obtain ⟨h1, h2, h3, h4, h5⟩ := raise_ok h
    intro hd
    rw [h1] at hd
    rw [h2, h4]
    exact hc hd
  | set_interrupt_handler hh =>
    obtain ⟨h1, h2, h3, h4, h5⟩ := set_interrupt_handler_ok h
    intro hd
    rw [h1] at hd
    rw [h2, h4]
    exact hc hd
  | get_try =>
    simp only [applyOp] at h
    split at h
    · simp at h
    next t c1 heq =>
      cases h
      have := get_try_ok heq
      subst this
      exact fun _ => Or.inr rfl
  | detach_future =>
    simp only [applyOp] at h
    unfold detach_future at h
    split at h
    · simp at h
    next c1 ev1 ha =>
      split at h
      · simp at h
      next c2 ev2 hd =>
        cases h
        obtain ⟨rfl, _⟩ := detach_one_ok hd
        exact (activate_ok ha).2.1 hc
  | detach_promise =>
    simp only [applyOp] at h
    unfold detach_promise at h
    split at h
    · split at h
      · simp at h
      next c1 ev1 hs =>
        split at h
        · simp at h
        next c2 ev2 hd =>
          cases h
          obtain ⟨rfl, _⟩ := detach_one_ok hd
          exact (set_result_ok hs).2.1
    · obtain ⟨rfl, _⟩ := detach_one_ok h
      exact fun hd => hc hd

theorem applyOp_attach {α : Type} {c c' : CoreS α} {op : Op α} {ev : List (Event α)}
    (h : applyOp c op = Except.ok (c', ev)) (hex : execOK c) :
    execOK c' ∧ c'.attached ≤ c.attached ∧ (c.attached = 0 → c'.attached = 0) := by
  cases op with
  | set_result t =>
    obtain ⟨h1, _, h3⟩ := set_result_ok h
    refine ⟨?_, (h3 hex).1, (h3 hex).2⟩
    intro e he
    rw [h1] at he
    exact hex e he
  | set_callback cb =>
    obtain ⟨h1, _, h3⟩ := set_callback_ok h
    refine ⟨?_, (h3 hex).1, (h3 hex).2⟩
    intro e he
    rw [h1] at he
    exact hex e he
  | activate =>
    obtain ⟨h1, _, h3⟩ := activate_ok h
    refine ⟨?_, (h3 hex).1, (h3 hex).2⟩
    intro e he
    rw [h1] at he
    exact hex e he
  | deactivate =>
    cases h
    exact ⟨fun e he => hex e he, le_refl _, fun h0 => h0⟩
  | raise e =>
    obtain ⟨_, _, h3, _, h5⟩ := raise_ok h
    refine ⟨?_, le_of_eq h3, fun h0 => h3.trans h0⟩
    intro e2 he
    rw [h5] at he
    exact hex e2 he
  | set_interrupt_handler hh =>
    obtain ⟨_, _, h3, _, h5⟩ := set_interrupt_handler_ok h
    refine ⟨?_, le_of_eq h3, fun h0 => h3.trans h0⟩
    intro e2 he
    rw [h5] at he
    exact hex e2 he
  | get_try =>
    simp only [applyOp] at h
    split at h
    · simp at h
    next t c1 heq =>
      cases h
      have := get_try_ok heq
      subst this
      exact ⟨fun e he => hex e he, le_refl _, fun h0 => h0⟩
  | detach_future =>
    simp only [applyOp] at h
    unfold detach_future at h
    split at h
    · simp at h
    next c1 ev1 ha =>
      split at h
      · simp at h
      next c2 ev2 hd =>
        cases h
        obtain ⟨rfl, hz⟩ := detach_one_ok hd
        obtain ⟨h1, _, h3⟩ := activate_ok ha
        have hex1 : execOK c1 := by
          intro e he
          rw [h1] at he
          exact hex e he
        refine ⟨fun e he => hex1 e he, ?_, ?_⟩
        · have := (h3 hex).1
          dsimp only
          omega
        · intro h0
          exact absurd ((h3 hex).2 h0) hz
  | detach_promise =>
    simp only [applyOp] at h
    unfold detach_promise at h
    split at h
    · split at h
      · simp at h
      next c1 ev1 hs =>
        split at h
        · simp at h
        next c2 ev2 hd =>
          cases h
          obtain ⟨rfl, hz⟩ := detach_one_ok hd
          obtain ⟨h1, _, h3⟩ := set_result_ok hs
          have hex1 : execOK c1 := by
            intro e he
            rw [h1] at he
            exact hex e he
          refine ⟨fun e he => hex1 e he, ?_, ?_⟩
          · have := (h3 hex).1
            dsimp only
            omega
          · intro h0
            exact absurd ((h3 hex).2 h0) hz
    · obtain ⟨rfl, hz⟩ := detach_one_ok h
      exact ⟨fun e he => hex e he, Nat.sub_le _ _, fun h0 => absurd h0 hz⟩

theorem runOps_resultInv {α : Type} (ops : List (Op α)) :
    ∀ {c c' : CoreS α} {ev : List (Event α)},
      runOps c ops = Except.ok (c', ev) → resultInv c → resultInv c' := by
  induction ops with
  | nil =>
    intro c c' ev h hc
    cases h
    exact hc
  | cons op ops ih =>
    intro c c' ev h hc
    unfold runOps at h
    split at h
    · simp at h
    next c1 ev1 h1 =>
      split at h
      · simp at h
      next c2 ev2 h2 =>
        cases h
        exact ih h2 (applyOp_resultInv h1 hc)

theorem runOps_attach {α : Type} (ops : List (Op α)) :
    ∀ {c c' : CoreS α} {ev : List (Event α)},
      runOps c ops = Except.ok (c', ev) → execOK c →
      execOK c' ∧ c'.attached ≤ c.attached ∧ (c.attached = 0 → c'.attached = 0) := by
  induction ops with
  | nil =>
    intro c c' ev h hex
    cases h
    exact ⟨hex, le_refl _, fun h0 => h0⟩
  | cons op ops ih =>
    intro c c' ev h hex
    unfold runOps at h
    split at h
    · simp at h
    next c1 ev1 h1 =>
      split at h
      · simp at h
      next c2 ev2 h2 =>
        cases h
        obtain ⟨hex1, hle1, hz1⟩ := applyOp_attach h1 hex
        obtain ⟨hex2, hle2, hz2⟩ := ih h2 hex1
        exact ⟨hex2, le_trans hle2 hle1, fun h0 => hz2 (hz1 h0)⟩

theorem edrain_split (q1 : List Task) : ∀ q2 : List Task,
    edrain (q1 ++ q2) = beginsEnds q1 ++ edrain (q2 ++ childrenQueue q1) := by
  induction q1 with
  | nil =>
    intro q2
    simp [beginsEnds, childrenQueue]
  | cons t ts ih =>
    intro q2
    rw [List.cons_append, edrain, List.append_assoc, ih (q2 ++ t.children)]
    simp [beginsEnds, childrenQueue, List.append_assoc]

/-- C1: for a fresh Core (state `Start`, active, null executor), one
`set_result t` and one `set_callback cb` in either order invoke the installed
callback exactly once, with exactly the `Try` value `t`, and leave the state
at `Done`. -/
theorem c1_one_result_one_callback_single_dispatch {α : Type} (t : Try α) (cb : Nat) :
    ∃ c1 ev1 c2 ev2,
      runOps Core.new [Op.set_result t, Op.set_callback cb] = Except.ok (c1, ev1)
        ∧ invocations ev1 = [(cb, t)] ∧ c1.state = State.Done
        ∧ runOps Core.new [Op.set_callback cb, Op.set_result t] = Except.ok (c2, ev2)
        ∧ invocations ev2 = [(cb, t)] ∧ c2.state = State.Done :=
  ⟨_, _, _, _, rfl, rfl, rfl, rfl, rfl, rfl⟩

/-- C8: `deactivate` before the Core reaches `Armed` prevents dispatch when
the `set_result`/`set_callback` pair completes (state stays `Armed`, no
callback invocation); a later `activate` dispatches, moving the state to
`Done` and running the callback exactly once — in both completion orders. -/
theorem c8_deactivate_defers_activate_dispatches {α : Type} (t : Try α) (cb : Nat) :
    ∃ c1 ev1 c2 ev2 c3 ev3 c4 ev4,
      runOps Core.new [Op.deactivate, Op.set_callback cb, Op.set_result t]
          = Except.ok (c1, ev1)
        ∧ c1.state = State.Armed ∧ invocations ev1 = []
        ∧ runOps c1 [Op.activate] = Except.ok (c2, ev2)
        ∧ c2.state = State.Done ∧ invocations ev2 = [(cb, t)]
        ∧ runOps Core.new [Op.deactivate, Op.set_result t, Op.set_callback cb]
            = Except.ok (c3, ev3)
        ∧ c3.state = State.Armed ∧ invocations ev3 = []
        ∧ runOps c3 [Op.activate] = Except.ok (c4, ev4)
        ∧ c4.state = State.Done ∧ invocations ev4 = [(cb, t)] :=
  ⟨_, _, _, _, _, _, _, _, rfl, rfl, rfl, rfl, rfl, rfl, rfl, rfl, rfl, rfl, rfl, rfl⟩

/-- C5: dropping a Promise whose result was never set injects, through the
normal `set_result` path, the error result of kind `Other` with reason
`"Broken Promise"`: a previously retrieved Future then observes
`value() == Err(Other, "Broken Promise")`, and a callback that was installed
before the drop receives exactly that error `Try`, exactly once. -/
theorem c5_broken_promise_error_result {α : Type} (cb : Nat) :
    ∃ p1 c1 ev1 c2 cA cB evB,
      Promise.get_future (Promise.new (α := α)) = Except.ok p1
        ∧ Promise.detach p1 = Except.ok (c1, ev1)
        ∧ Future.value c1
            = Except.ok (Except.error ⟨ErrorKind.other, "Broken Promise"⟩, c2)
        ∧ set_callback p1.core cb = Except.ok (cA, [])
        ∧ Promise.detach { core := cA, retrieved := true } = Except.ok (cB, evB)
        ∧ invocations evB = [(cb, Try.new_error ⟨ErrorKind.other, "Broken Promise"⟩)] :=
  ⟨_, _, _, _, _, _, _, rfl, rfl, rfl, rfl, rfl, rfl⟩

/-- C9: for the queued-immediate executor, a task submitted by `add` to the
empty queue completes (its `finished` event is emitted) before any task its
body submitted runs, nothing runs nested between its `started` and `finished`
events, and at every level the enqueued tasks run in FIFO submission order
followed by the tasks they submitted, again in submission order. -/
theorem c9_queued_immediate_ordering :
    (∀ t : Task,
      qadd [] t
        = (TEvent.started t.id :: TEvent.finished t.id :: edrain t.children, []))
    ∧ (∀ q : List Task, edrain q = beginsEnds q ++ edrain (childrenQueue q)) := by
  constructor
  · intro t
    rw [qadd]
    simp [edrain]
  · intro q
    have h := edrain_split q []
    simpa using h

/-- C2 counterexample: on a Core whose snapshotted executor is non-null and
reports `get_num_priorities() == 1`, completing the result/callback pair makes
`do_callback` run the callback inline on the completing thread — the trace
contains an inline invocation and no `Executor::add` submission, contradicting
the claim that the callback is submitted to the executor and run inline only
for a null executor. -/
theorem c2_counterexample :
    (runOps { Core.new (α := Nat) with executor := some ⟨1⟩ }
        [Op.set_result (Try.new_value 7), Op.set_callback 3]).map Prod.snd
      = Except.ok [Event.attach_changed 3,
          Event.callback_inline 3 (Try.new_value 7), Event.attach_changed 2]
    ∧ (runOps { Core.new (α := Nat) with executor := some ⟨1⟩ }
        [Op.set_result (Try.new_value 7), Op.set_callback 3]).map
          (fun p => executorSubmissions p.2)
      = Except.ok []
    ∧ (runOps { Core.new (α := Nat) with executor := some ⟨1⟩ }
        [Op.set_result (Try.new_value 7), Op.set_callback 3]).map
          (fun p => invocations p.2)
      = Except.ok [(3, Try.new_value 7)] :=
  ⟨rfl, rfl, rfl⟩

/-- C3 counterexample: `get_try` on a ready Core moves the result out but
leaves the state at `OnlyResult`, so a reachable Core has
`state ∈ {OnlyResult, Armed, Done}` with an empty result slot, contradicting
the claimed invariant for cores on which `get_try` has run. -/
theorem c3_counterexample :
    (get_try (Core.new_try (Try.new_value (1 : Nat)))).map
        (fun p => (p.2.state, p.2.result))
      = Except.ok (State.OnlyResult, none) :=
  rfl

/-- C6 counterexample: `Future::value()` on a valid Future over a not-ready
Core does not return an `Err` result — `get_try` panics with the message
`Future not ready` (modelled by the outer `Except.error`, the panic layer). -/
theorem c6_counterexample :
    Future.value (Core.new (α := Nat)) = Except.error "Future not ready" :=
  rfl

/-- C10 counterexample: after `get_try` on a ready Core, the state is still
`OnlyResult` but `ready()`/`has_result` does not continue to report `true` —
it panics on the source's `assert!((*self.result.get()).is_some())`, the
result slot now being empty. -/
theorem c10_counterexample :
    (get_try (Core.new_try (Try.new_value (0 : Nat)))).map
        (fun p => (p.2.state, has_result p.2, get_try p.2))
      = Except.ok (State.OnlyResult,
          Except.error "assertion failed: (*self.result.get()).is_some()",
          Except.error "assertion failed: (*self.result.get()).is_some()") :=
  rfl

/-- C7: for `raise` and `set_interrupt_handler` on a Core with no result
present, the interrupt slot is written at most once (the first raise wins,
later raises change nothing and invoke nothing); each call invokes the
handler at most once — `raise` invokes an already-stored handler, and
`set_interrupt_handler` on an already-recorded interrupt invokes the new
handler without storing it — and a raise/set pair invokes the handler exactly
once in either order; a `raise` issued after a result is present stores
nothing and invokes no handler. -/
theorem c7_interrupt_once_handler_once :
    (∀ {α : Type} (c : CoreS α) (e x : IoError), c.interrupt = some x →
      raise c e = Except.ok (c, []))
    ∧ (∀ {α : Type} (c : CoreS α) (e : IoError), has_result c = Except.ok true →
      raise c e = Except.ok (c, []))
    ∧ (∀ {α : Type} (c : CoreS α) (e : IoError), c.interrupt = none →
      has_result c = Except.ok false →
      raise c e = Except.ok ({ c with interrupt := some e },
        match c.interrupt_handler with
        | some h => [Event.handler_invoked h e]
        | none => []))
    ∧ (∀ {α : Type} (c : CoreS α) (h : Nat) (e : IoError),
      has_result c = Except.ok false → c.interrupt = some e →
      set_interrupt_handler c h = Except.ok (c, [Event.handler_invoked h e]))
    ∧ (∀ {α : Type} (c : CoreS α) (h : Nat) (c1 : CoreS α) (ev : List (Event α)),
      set_interrupt_handler c h = Except.ok (c1, ev) →
      c1.interrupt = c.interrupt ∧ (handlerInvocations ev).length ≤ 1)
    ∧ (∀ {α : Type} (c : CoreS α) (e : IoError) (c1 : CoreS α) (ev : List (Event α)),
      raise c e = Except.ok (c1, ev) → (handlerInvocations ev).length ≤ 1)
    ∧ (∀ (e : IoError) (h : Nat),
      ∃ cX evX cY evY,
        runOps (Core.new (α := Nat)) [Op.raise e, Op.set_interrupt_handler h]
            = Except.ok (cX, evX)
          ∧ handlerInvocations evX = [(h, e)] ∧ cX.interrupt = some e
          ∧ get_interrupt_handler cX = none
          ∧ runOps (Core.new (α := Nat)) [Op.set_interrupt_handler h, Op.raise e]
            = Except.ok (cY, evY)
          ∧ handlerInvocations evY = [(h, e)] ∧ cY.interrupt = some e
          ∧ get_interrupt_handler cY = some h) := by
  refine ⟨?_, ?_, ?_, ?_, ?_, ?_, ?_⟩
  · intro α c e x hx
    simp [raise, hx]
  · intro α c e hr
    unfold raise
    rcases hi : c.interrupt with _ | y <;> simp [hi, hr]
  · intro α c e hi hr
    unfold raise
    rcases hh : c.interrupt_handler with _ | h <;> simp [hi, hr, hh]
  · intro α c h e hr hi
    simp [set_interrupt_handler, hr, hi]
  · intro α c h c1 ev hok
    unfold set_interrupt_handler at hok
    split at hok
    · simp at hok
    · cases hok
      simp [handlerInvocations]
    · split at hok
      · cases hok
        simp [handlerInvocations]
      · cases hok
        simp [set_interrupt_handler_nolock, handlerInvocations]
  · intro α c e c1 ev hok
    unfold raise at hok
    split at hok
    · split at hok
      · simp at hok
      · cases hok
        simp [handlerInvocations]
      · dsimp only at hok
        split at hok
        · cases hok
          simp [handlerInvocations]
        · cases hok
          simp [handlerInvocations]
    · cases hok
      simp [handlerInvocations]
  · intro e h
    exact ⟨_, _, _, _, rfl, rfl, rfl, rfl, rfl, rfl, rfl, rfl⟩

/-- C7 witness: a second raise on a Core whose interrupt is already recorded
is a no-op; a raise after a result is present is a no-op; registering a
handler after an interrupt was recorded invokes it once without storing it. -/
theorem c7_witness :
    raise { Core.new (α := Nat) with interrupt := some ⟨ErrorKind.other, "x"⟩ }
        ⟨ErrorKind.other, "y"⟩
      = Except.ok
          ({ Core.new (α := Nat) with interrupt := some ⟨ErrorKind.other, "x"⟩ }, [])
    ∧ raise (Core.new_try (Try.new_value (0 : Nat))) ⟨ErrorKind.other, "z"⟩
      = Except.ok (Core.new_try (Try.new_value (0 : Nat)), [])
    ∧ set_interrupt_handler
          { Core.new (α := Nat) with interrupt := some ⟨ErrorKind.other, "x"⟩ } 5
      = Except.ok
          ({ Core.new (α := Nat) with interrupt := some ⟨ErrorKind.other, "x"⟩ },
            [Event.handler_invoked 5 ⟨ErrorKind.other, "x"⟩]) :=
  ⟨c7_interrupt_once_handler_once.1 _ _ _ rfl,
   c7_interrupt_once_handler_once.2.1 _ _ rfl,
   c7_interrupt_once_handler_once.2.2.2.1 _ _ _ rfl rfl⟩

/-- C2 amended: in `do_callback`, both when the snapshotted executor is
non-null with `get_num_priorities() == 1` and when it is null, the bound
callback applied to the moved-out result is invoked inline on the completing
thread; nothing is ever submitted through the executor's `add`. -/
theorem c2_amended_inline_dispatch {α : Type} (t : Try α) (cb : Nat) (e : Exec)
    (h : e.num_priorities = 1) :
    ∃ c1 ev1 c2 ev2,
      runOps { Core.new (α := α) with executor := some e }
          [Op.set_result t, Op.set_callback cb] = Except.ok (c1, ev1)
        ∧ invocations ev1 = [(cb, t)] ∧ executorSubmissions ev1 = []
        ∧ c1.state = State.Done
        ∧ runOps (Core.new (α := α)) [Op.set_result t, Op.set_callback cb]
            = Except.ok (c2, ev2)
        ∧ invocations ev2 = [(cb, t)] ∧ executorSubmissions ev2 = []
        ∧ c2.state = State.Done := by
  cases e with
  | mk np =>
    obtain rfl : np = 1 := h
    exact ⟨_, _, _, _, rfl, rfl, rfl, rfl, rfl, rfl, rfl, rfl⟩

/-- C2 amended witness: the inline dispatch at a concrete result, callback and
executor. -/
theorem c2_amended_witness :
    ∃ c1 ev1 c2 ev2,
      runOps { Core.new (α := Nat) with executor := some ⟨1⟩ }
          [Op.set_result (Try.new_value 9), Op.set_callback 4] = Except.ok (c1, ev1)
        ∧ invocations ev1 = [(4, Try.new_value 9)] ∧ executorSubmissions ev1 = []
        ∧ c1.state = State.Done
        ∧ runOps (Core.new (α := Nat)) [Op.set_result (Try.new_value 9), Op.set_callback 4]
            = Except.ok (c2, ev2)
        ∧ invocations ev2 = [(4, Try.new_value 9)] ∧ executorSubmissions ev2 = []
        ∧ c2.state = State.Done :=
  c2_amended_inline_dispatch (Try.new_value 9) 4 ⟨1⟩ rfl

/-- C6 amended: `Future::value()` on a valid Future returns Ok/Err extracted
from the stored `Try` when the Core is ready; when the Core is not ready it
panics with the message `Future not ready` (it does not surface an `Err`). -/
theorem c6_amended_value_ready_or_panic {α : Type} (c : CoreS α) :
    ((c.state = State.Start ∨ c.state = State.OnlyCallback) →
      Future.value c = Except.error "Future not ready")
    ∧ (∀ t : Try α, c.result = some t →
      (c.state = State.OnlyResult ∨ c.state = State.Armed ∨ c.state = State.Done) →
      Future.value c
        = Except.ok (Try.value t, { c with result := none, consumed := true })) := by
  constructor
  · rintro (h | h) <;> simp [Future.value, get_try, ready, has_result, h]
  · rintro t hres (h | h | h) <;>
      simp [Future.value, get_try, ready, has_result, h, hres]

/-- C6 amended witness: a not-ready Core panics, a ready Core yields the
stored value. -/
theorem c6_amended_witness :
    Future.value (Core.new (α := Nat)) = Except.error "Future not ready"
    ∧ Future.value (Core.new_try (Try.new_value (5 : Nat)))
      = Except.ok (Except.ok 5,
          { Core.new_try (Try.new_value (5 : Nat)) with
              result := none, consumed := true }) := by
  constructor
  · exact (c6_amended_value_ready_or_panic _).1 (Or.inl rfl)
  · exact (c6_amended_value_ready_or_panic
      (Core.new_try (Try.new_value (5 : Nat)))).2 (Try.new_value 5) rfl (Or.inl rfl)

/-- C10 amended: `get_try` on a ready Core moves the `Try` out and leaves the
state unchanged; but with the slot now empty, `ready()`/`has_result` — and
hence a second `get_try` or `Future::value()` — panics on the assertion that
the result slot is non-empty, rather than reporting `true` or returning the
surfaced `Future not ready` error. -/
theorem c10_amended_get_try_moves_but_keeps_state {α : Type} (c : CoreS α) (t : Try α)
    (hres : c.result = some t)
    (hst : c.state = State.OnlyResult ∨ c.state = State.Armed ∨ c.state = State.Done) :
    ∃ c' : CoreS α,
      get_try c = Except.ok (t, c')
      ∧ c'.state = c.state ∧ c'.result = none
      ∧ has_result c' = Except.error "assertion failed: (*self.result.get()).is_some()"
      ∧ get_try c' = Except.error "assertion failed: (*self.result.get()).is_some()"
      ∧ Future.value c'
          = Except.error "assertion failed: (*self.result.get()).is_some()" := by
  refine ⟨{ c with result := none, consumed := true }, ?_, rfl, rfl, ?_, ?_, ?_⟩ <;>
    rcases hst with h | h | h <;>
    simp [get_try, ready, has_result, Future.value, h, hres]

/-- C4 counterexample: after construction of a fresh Core (`attached = 2`),
completing the result/callback pair makes `do_callback` increment the attach
count to 3 (the keep-alive bump) before the scope guard brings it back to 2 —
the attach count does not only decrease. -/
theorem c4_counterexample :
    (Core.new (α := Nat)).attached = 2
    ∧ (runOps (Core.new (α := Nat))
          [Op.set_result (Try.new_value 0), Op.set_callback 0]).map Prod.snd
      = Except.ok [Event.attach_changed 3,
          Event.callback_inline 0 (Try.new_value 0), Event.attach_changed 2] :=
  ⟨rfl, rfl⟩

/-- C4 amended: for cores whose bound executor (if any) reports
`num_priorities == 1` (true of every executor in the repository), the attach
count sampled at operation boundaries never increases — the single increment
inside `do_callback` is undone by the scope guard before the operation
returns — and once it has reached 0 at a boundary it stays 0, so it becomes 0
at most once. -/
theorem c4_amended_attach_boundary_monotone {α : Type} (c : CoreS α)
    (ops1 ops2 : List (Op α)) (hex : execOK c) :
    ∀ c1 ev1, runOps c ops1 = Except.ok (c1, ev1) →
    ∀ c2 ev2, runOps c1 ops2 = Except.ok (c2, ev2) →
    c1.attached ≤ c.attached ∧ c2.attached ≤ c1.attached
      ∧ (c1.attached = 0 → c2.attached = 0) := by
  intro c1 ev1 h1 c2 ev2 h2
  obtain ⟨hex1, hle1, _⟩ := runOps_attach ops1 h1 hex
  obtain ⟨_, hle2, hz2⟩ := runOps_attach ops2 h2 hex1
  exact ⟨hle1, hle2, hz2⟩

/-- C4 amended witness: a full lifecycle — Future detach then Promise detach —
takes the attach count from 2 to 1 to 0 at operation boundaries. -/
theorem c4_amended_witness :
    (1 : Nat) ≤ 2 ∧ (0 : Nat) ≤ 1 ∧ ((1 : Nat) = 0 → (0 : Nat) = 0) :=
  c4_amended_attach_boundary_monotone (Core.new (α := Nat))
    [Op.detach_future] [Op.detach_promise]
    (by intro e he; simp [Core.new] at he) _ _ rfl _ _ rfl

/-- C3 amended: along every operation sequence from a freshly constructed
Core (either `Core::new` or the pre-populated `Core::new_try`), whenever the
state is `OnlyResult`, `Armed` or `Done` the result slot is non-empty unless
the result has already been moved out of the slot by `get_try` or by the
dispatch in `do_callback` (ghost flag `consumed`). -/
theorem c3_amended_result_nonempty_unless_consumed {α : Type} :
    (∀ (ops : List (Op α)) (c' : CoreS α) (ev : List (Event α)),
      runOps Core.new ops = Except.ok (c', ev) →
      (c'.state = State.OnlyResult ∨ c'.state = State.Armed ∨ c'.state = State.Done) →
      c'.result.isSome = true ∨ c'.consumed = true)
    ∧ (∀ (t : Try α) (ops : List (Op α)) (c' : CoreS α) (ev : List (Event α)),
      runOps (Core.new_try t) ops = Except.ok (c', ev) →
      (c'.state = State.OnlyResult ∨ c'.state = State.Armed ∨ c'.state = State.Done) →
      c'.result.isSome = true ∨ c'.consumed = true) := by
  constructor
  · intro ops c' ev h
    refine runOps_resultInv ops h ?_
    intro hd
    rcases hd with hd | hd | hd <;> exact absurd hd (by simp [Core.new])
  · intro t ops c' ev h
    refine runOps_resultInv ops h ?_
    intro _
    exact Or.inl rfl

/-- C3 amended witness: the invariant instantiated on the pre-populated core
with the empty operation sequence. -/
theorem c3_amended_witness :
    (Core.new_try (Try.new_value (0 : Nat))).result.isSome = true
    ∨ (Core.new_try (Try.new_value (0 : Nat))).consumed = true :=
  c3_amended_result_nonempty_unless_consumed.2 (Try.new_value 0) []
    (Core.new_try (Try.new_value 0)) [] rfl (Or.inl rfl)

/-- C10 amended witness: the frame effect of `get_try` at a concrete ready
Core. -/
theorem c10_amended_witness :
    ∃ c' : CoreS Nat,
      get_try (Core.new_try (Try.new_value (2 : Nat))) = Except.ok (Try.new_value 2, c')
      ∧ c'.state = State.OnlyResult ∧ c'.result = none
      ∧ has_result c' = Except.error "assertion failed: (*self.result.get()).is_some()"
      ∧ get_try c' = Except.error "assertion failed: (*self.result.get()).is_some()"
      ∧ Future.value c'
          = Except.error "assertion failed: (*self.result.get()).is_some()" :=
  c10_amended_get_try_moves_but_keeps_state
    (Core.new_try (Try.new_value (2 : Nat))) (Try.new_value 2) rfl (Or.inl rfl)

end Futures

